import Mathlib

/-!
Verification of the Smart RCE core against its specification.

The development shallowly embeds the three core components of the
repository (the charge-window optimizer of `domain/ems.py`, the water
heater load controller of `domain/ems.py`, and the price refresh policy
of `coordinator.py`).  Python floats are modelled as rationals; Python
values that may be `None` are modelled with `Option`; Python code that
raises is modelled with `Except`.
-/

/-- A Python number: either an `int` or a `float`.  The distinction
matters because `datetime.time` accepts only `int` arguments and raises
`TypeError` on a `float`. -/
inductive PyNum where
  | int : ℤ → PyNum
  | float : ℚ → PyNum
deriving DecidableEq, Repr

/-- Numeric value of a `PyNum`. -/
def PyNum.toQ : PyNum → ℚ
  | .int n => (n : ℚ)
  | .float q => q

/-- The `TypeError` exception raised by `datetime.time` on a float hour. -/
inductive PyTypeError where
  | typeError
deriving DecidableEq, Repr

/- ## Charge-window optimizer (`domain/ems.py`) -/

/-- `MAX_CONSECUTIVE_HOURS` from `domain/ems.py`. -/
def MAX_CONSECUTIVE_HOURS : ℕ := 8

/-- `INITIAL_BEST_CONSECUTIVE_HOURS` from `domain/ems.py`. -/
def INITIAL_BEST_CONSECUTIVE_HOURS : ℕ := 3

/-- `POSSIBLE_CONSECUTIVE_HOURS = range(3, MAX_CONSECUTIVE_HOURS + 1)`. -/
def POSSIBLE_CONSECUTIVE_HOURS : List ℕ :=
  List.range' 3 (MAX_CONSECUTIVE_HOURS + 1 - 3)

/-- `mean(prices[hour : hour + consecutive_hours])`: the Python slice is
`(prices.drop hour).take c` and `statistics.mean` divides the sum by the
slice length. -/
def windowMean (prices : List ℚ) (hour c : ℕ) : ℚ :=
  let slice := (prices.drop hour).take c
  slice.sum / (slice.length : ℚ)

/-- `max(prices[hour : hour + c])` (the slice is nonempty whenever it is
used by the source). -/
def windowMax (prices : List ℚ) (hour c : ℕ) : ℚ :=
  (((prices.drop hour).take c).max?).getD 0

/-- `prices[i]` for the in-range indices used by the source. -/
def priceAt (prices : List ℚ) (i : ℕ) : ℚ :=
  prices.getD i 0

/-- The inner loop of `calculate_start_charge_hours`: `min_avg` starts at
`float("inf")` (modelled as `none`, which every finite average beats) and
`best_hour` starts at `0`; a strictly smaller average adopts its hour. -/
def startChargeHoursGo (prices : List ℚ) (c : ℕ) :
    List ℕ → Option ℚ → ℕ → ℕ
  | [], _, best => best
  | h :: rest, minAvg, best =>
    let avg := windowMean prices h c
    match minAvg with
    | none => startChargeHoursGo prices c rest (some avg) h
    | some m =>
      if avg < m then startChargeHoursGo prices c rest (some avg) h
      else startChargeHoursGo prices c rest (some m) best

/-- `calculate_start_charge_hours` from `domain/ems.py`, for one window
length: scan start hours `range(6, 16)` keeping the strictly lowest
mean.  The source builds the dict entry by entry; here the dict is the
function `fun c => calculate_start_charge_hours prices c`. -/
def calculate_start_charge_hours (prices : List ℚ) (c : ℕ) : ℕ :=
  startChargeHoursGo prices c (List.range' 6 10) none 0

/-- The loop of `find_best_consecutive_hours`: for each candidate length,
adopt it as the new best exactly when
`candidate == best_hour or candidate < best_hour and
 (prices[candidate] < 100 or prices[candidate] - cap < 45)`
(`best_hour` and `cap` are fixed before the loop and never updated). -/
def adoptGo (prices : List ℚ) (sch : ℕ → ℕ) (bestHour : ℕ) (cap : ℚ) :
    List ℕ → ℕ → ℕ
  | [], best => best
  | c :: rest, best =>
    let cand := sch c
    if cand = bestHour ∨
        (cand < bestHour ∧
          (priceAt prices cand < 100 ∨ priceAt prices cand - cap < 45)) then
      adoptGo prices sch bestHour cap rest c
    else
      adoptGo prices sch bestHour cap rest best

/-- `find_best_consecutive_hours` from `domain/ems.py`: `best_hour` is the
length-3 start and `initial_consecutive_hours_max_price` the maximum price
of the length-3 window; lengths greater than 3 are then scanned in
increasing order. -/
def find_best_consecutive_hours (prices : List ℚ) (sch : ℕ → ℕ) : ℕ :=
  let bestHour := sch INITIAL_BEST_CONSECUTIVE_HOURS
  let cap := windowMax prices bestHour INITIAL_BEST_CONSECUTIVE_HOURS
  adoptGo prices sch bestHour cap
    (POSSIBLE_CONSECUTIVE_HOURS.filter (fun x => INITIAL_BEST_CONSECUTIVE_HOURS < x))
    INITIAL_BEST_CONSECUTIVE_HOURS

/-- `EmsDayPrices.best_start_charge_hour`: a Python `int` unless the best
length is the initial 3, in which case the `float` `best_hour - 0.5`. -/
def best_start_charge_hour (sch : ℕ → ℕ) (best : ℕ) : PyNum :=
  if best = INITIAL_BEST_CONSECUTIVE_HOURS then
    .float ((sch best : ℚ) - 1/2)
  else
    .int (sch best)

/-- `EmsDayPrices.best_end_charge_hour`: always a Python `int`. -/
def best_end_charge_hour (sch : ℕ → ℕ) (best : ℕ) : ℤ :=
  sch best + best

/-- The charge plan derived from one price series: winning length, start
hour (numeric value) and end hour, as produced by
`find_charge_hours` plus `EmsDayPrices.best_start_charge_hour` /
`best_end_charge_hour`. -/
def chargePlan (prices : List ℚ) : ℕ × ℚ × ℚ :=
  let sch := calculate_start_charge_hours prices
  let best := find_best_consecutive_hours prices sch
  (best, (best_start_charge_hour sch best).toQ, ((best_end_charge_hour sch best : ℤ) : ℚ))

/- ## `EmsDayData.create` (`domain/ems.py`) -/

/-- A constructed `datetime.combine(day, time(hour, minute, 0))` value. -/
structure Timestamp where
  day : ℤ
  hour : ℤ
  minute : ℤ
deriving DecidableEq, Repr

/-- `EmsDayPrices.hour_to_timestamp`: `minute = int(hour * 60 % 60)` and
then `time(hour, minute, 0)`.  `datetime.time` requires an integer hour
and raises `TypeError` on any Python `float`. -/
def hour_to_timestamp (day : ℤ) (hour : PyNum) : Except PyTypeError Timestamp :=
  match hour with
  | .int h => .ok ⟨day, h, h * 60 % 60⟩
  | .float _ => .error .typeError

/-- The `EmsDayData` dataclass. -/
structure EmsDayData where
  hour_price : Option (List ℚ)
  start_charge_hour : Option PyNum
  start_charge_hour_datetime : Option Timestamp
  end_charge_hour : Option ℤ
  end_charge_hour_datetime : Option Timestamp
deriving DecidableEq, Repr

/-- `EmsDayData.create`: computes both charge-hour bounds and converts
them to timestamps; a `TypeError` raised by `hour_to_timestamp`
propagates. -/
def EmsDayData.create (day : ℤ) (prices : List ℚ) (sch : ℕ → ℕ) (best : ℕ) :
    Except PyTypeError EmsDayData :=
  let start := best_start_charge_hour sch best
  let endH := best_end_charge_hour sch best
  match hour_to_timestamp day start with
  | .error e => .error e
  | .ok st =>
    match hour_to_timestamp day (.int endH) with
    | .error e => .error e
    | .ok en => .ok ⟨some prices, some start, some st, some endH, some en⟩

/-- `Ems.update_rce` for one day's series: `find_charge_hours` followed by
`EmsDayData.create`. -/
def update_rce_day (day : ℤ) (prices : List ℚ) : Except PyTypeError EmsDayData :=
  let sch := calculate_start_charge_hours prices
  EmsDayData.create day prices sch (find_best_consecutive_hours prices sch)

instance {ε α : Type} [DecidableEq ε] [DecidableEq α] : DecidableEq (Except ε α) :=
  fun x y =>
    match x, y with
    | .ok a, .ok b =>
      if h : a = b then .isTrue (by rw [h]) else .isFalse (by intro he; cases he; exact h rfl)
    | .ok _, .error _ => .isFalse (by intro he; cases he)
    | .error _, .ok _ => .isFalse (by intro he; cases he)
    | .error a, .error b =>
      if h : a = b then .isTrue (by rw [h]) else .isFalse (by intro he; cases he; exact h rfl)

/- ## Water heater load controller (`domain/ems.py`, `WaterHeaterManager`) -/

/-- The `InputState` dataclass: five optional telemetry signals. -/
structure InputState where
  water_heater_is_on : Option Bool
  battery_soc : Option ℚ
  battery_power_2_minutes : Option ℚ
  consumption_minus_pv_2_minutes : Option ℚ
  exported_energy_hourly : Option ℚ
deriving DecidableEq, Repr

/-- `WaterHeaterManager.HEATER_POWER`. -/
def HEATER_POWER : ℚ := 3000

/-- `WaterHeaterManager._none_present`: true when any of the five signals
is `None`. -/
def none_present (s : InputState) : Bool :=
  s.water_heater_is_on.isNone || s.battery_soc.isNone ||
    s.battery_power_2_minutes.isNone || s.consumption_minus_pv_2_minutes.isNone ||
    s.exported_energy_hourly.isNone

/-- The tier chain of `WaterHeaterManager._update` (the `if`/`elif`
ladder on `battery_soc`), producing `(turn_on, turn_off)` before the
override block. -/
def waterHeaterTiers (battery_soc pv_available battery_power : ℚ) : Bool × Bool :=
  if battery_soc ≤ 89 then
    (decide (pv_available > 5200 - 1500), decide (battery_power < 1900 - 1000))
  else if battery_soc ≤ 96 then
    (decide (pv_available > 4500 - 1500), decide (battery_power < 1000 - 900))
  else if battery_soc = 97 ∨ battery_soc = 98 then
    (decide (pv_available > 3500), decide (battery_power < 400 - 300))
  else if battery_soc = 99 then
    (decide (pv_available > 3300), decide (battery_power < 290 - 200))
  else if battery_soc = 100 then
    (decide (pv_available > HEATER_POWER), decide (pv_available < 0))
  else
    (false, false)

/-- The override block of `WaterHeaterManager._update`: two sequential
`if` statements guarded by `battery_soc >= 90`. -/
def waterHeaterOverrides (water_heater_is_on : Bool)
    (battery_soc pv_available exported_energy : ℚ) (t : Bool × Bool) : Bool × Bool :=
  if battery_soc ≥ 90 then
    let t1 := if exported_energy > 300 ∧ pv_available > 0 then (true, false) else t
    if exported_energy > 80 ∧ water_heater_is_on then (t1.1, false) else t1
  else
    t

/-- `WaterHeaterManager._update`: neutral `(False, False)` when any signal
is absent; otherwise the tier chain followed by the override block, using
the derived values `pv_available = -consumption_minus_pv_2_minutes`,
`battery_power = -battery_power_2_minutes` and
`exported_energy = exported_energy_hourly * 1000`. -/
def waterHeaterUpdate (s : InputState) : Bool × Bool :=
  if none_present s then
    (false, false)
  else
    let water_heater_is_on := s.water_heater_is_on.getD false
    let pv_available := -(s.consumption_minus_pv_2_minutes.getD 0)
    let battery_soc := s.battery_soc.getD 0
    let battery_power := -(s.battery_power_2_minutes.getD 0)
    let exported_energy := s.exported_energy_hourly.getD 0 * 1000
    waterHeaterOverrides water_heater_is_on battery_soc pv_available exported_energy
      (waterHeaterTiers battery_soc pv_available battery_power)

/- ## Price cache refresh policy (`coordinator.py`) -/

/-- A local wall-clock instant: calendar day (as a day count) and seconds
into that day.  `now.date()` is `day` and `now.hour` is `sec / 3600`. -/
structure LocalTime where
  day : ℤ
  sec : ℕ
deriving DecidableEq, Repr

/-- `now.hour`. -/
def LocalTime.hour (t : LocalTime) : ℕ := t.sec / 3600

/-- One day's fetched prices (`RceDayPrices`); only its presence matters
to the refresh policy. -/
structure RceDayPrices where
  prices : List ℚ
deriving DecidableEq, Repr

/-- The `RceData` snapshot held by the coordinator.  `RceApi.async_get_prices`
can return `None` for a day, so both day fields are optional. -/
structure RceData where
  fetched_at : LocalTime
  today : Option RceDayPrices
  tomorrow : Option RceDayPrices
deriving DecidableEq, Repr

/-- A failure of the external fetch (`ApiError`, timeout, or any other
exception raised by `async_get_prices`). -/
inductive FetchFailure where
  | apiError
  | timedOut
deriving DecidableEq, Repr

/-- The error surfaced by `_async_update_data`: either the `UpdateFailed`
raised by `_fetch_prices_for_day`, or the `TypeError` raised at
`coordinator.py` line 109 (see `updateData`). -/
inductive UpdateErr where
  | updateFailed : FetchFailure → UpdateErr
  | typeError
deriving DecidableEq, Repr

/-- `RCE_TOMORROW_PUBLICATION_HOUR` from `coordinator.py`. -/
def RCE_TOMORROW_PUBLICATION_HOUR : ℕ := 14

/-- `MINIMUM_TIME_BETWEEN_FETCHES_SECONDS` from `coordinator.py`. -/
def MINIMUM_TIME_BETWEEN_FETCHES_SECONDS : ℕ := 14 * 60

/-- `SmartRceDataUpdateCoordinator._fetch_prices_for_day`: any exception of
the fetch is re-raised as `UpdateFailed`. -/
def fetch_prices_for_day (fetch : ℤ → Except FetchFailure (Option RceDayPrices))
    (day : ℤ) : Except UpdateErr (Option RceDayPrices) :=
  match fetch day with
  | .ok r => .ok r
  | .error e => .error (.updateFailed e)

/-- `SmartRceDataUpdateCoordinator._full_update`: fetch today then
tomorrow; the second component records the days for which a fetch was
issued, in order. -/
def full_update (fetch : ℤ → Except FetchFailure (Option RceDayPrices))
    (now : LocalTime) : Except UpdateErr RceData × List ℤ :=
  match fetch_prices_for_day fetch now.day with
  | .error e => (.error e, [now.day])
  | .ok t =>
    match fetch_prices_for_day fetch (now.day + 1) with
    | .error e => (.error e, [now.day, now.day + 1])
    | .ok tm => (.ok ⟨now, t, tm⟩, [now.day, now.day + 1])

/-- `SmartRceDataUpdateCoordinator._async_update_data`.  The branch that
the source intends as the partial refresh is embedded as raising
`TypeError`: line 108 of `coordinator.py` reads
`elapsed_seconds = (now - self.data.fetched_at).total_seconds`, binding
the bound method without calling it, so the comparison
`elapsed_seconds > MINIMUM_TIME_BETWEEN_FETCHES_SECONDS` on line 109
raises `TypeError` before any fetch is issued. -/
def updateData (data : Option RceData) (now : LocalTime)
    (fetch : ℤ → Except FetchFailure (Option RceDayPrices)) :
    Except UpdateErr RceData × List ℤ :=
  match data with
  | none => full_update fetch now
  | some d =>
    match d.today with
    | none => full_update fetch now
    | some _ =>
      if d.fetched_at.day ≠ now.day then
        full_update fetch now
      else
        match d.tomorrow with
        | some _ => (.ok d, [])
        | none =>
          if now.hour ≥ RCE_TOMORROW_PUBLICATION_HOUR then
            (.error .typeError, [])
          else
            (.ok d, [])

/-- Modelled from the spec: the retention of the previously cached
snapshot on a failed refresh lives in the external update framework
(Home Assistant's `DataUpdateCoordinator`, not part of this repository's
sources).  Per the spec, a fetch failure "must be surfaced to the caller
as a distinct update-failed signal while leaving any previously cached
snapshot untouched"; only a successful refresh replaces the snapshot. -/
def commitUpdate (old : Option RceData) (r : Except UpdateErr RceData) :
    Option RceData :=
  match r with
  | .ok d => some d
  | .error _ => old

/- ## Specification-side definitions and concrete fixtures -/

/-- The winning-length selection exactly as the specification words it
(§4.1 step 2): starting from winner length 3 with winner hour
`bestStart[3]` and `capPrice` computed once over the length-3 window, a
length `L` from 4 to 8 is adopted exactly when its start equals the
winner hour, or is earlier and cheap in absolute terms or not much worse
than the cap.  To be compared with `find_best_consecutive_hours`. -/
def winnerSelectionClaim (prices : List ℚ) (sch : ℕ → ℕ) : ℕ :=
  let winnerHour := sch 3
  let capPrice := windowMax prices winnerHour 3
  (List.range' 4 5).foldl
    (fun winner L =>
      if sch L = winnerHour ∨
          (sch L < winnerHour ∧
            (priceAt prices (sch L) < 100 ∨ priceAt prices (sch L) - capPrice < 45)) then
        L
      else winner) 3

/-- A concrete 24-hour series: expensive overnight, very cheap 6–8, a
spike at 9, moderate 10–17.  Its winning window length is 3 (hours 6–8);
every longer window starts at 10, later than 6, so none is adopted. -/
def spikeSeries : List ℚ :=
  List.replicate 6 500 ++ [0, 0, 0] ++ [1000] ++ List.replicate 8 10 ++ List.replicate 6 500

/- ## Helper lemmas about the optimizer -/

/-- Over a constant series, every window mean equals the constant. -/
lemma windowMean_replicate (v : ℚ) (h c : ℕ) (hc : 0 < c) (hfit : h + c ≤ 24) :
    windowMean (List.replicate 24 v) h c = v := by
  simp only [windowMean, List.drop_replicate, List.take_replicate]
  have hmin : min c (24 - h) = c := by omega
  rw [hmin, List.sum_replicate, nsmul_eq_mul, List.length_replicate]
  have : (c : ℚ) ≠ 0 := Nat.cast_ne_zero.mpr hc.ne'
  field_simp

/-- When every remaining window mean equals the current minimum, the scan
keeps its current best hour (the comparison is strict). -/
lemma startChargeHoursGo_const (p : List ℚ) (c : ℕ) (v : ℚ) :
    ∀ (hours : List ℕ), (∀ h ∈ hours, windowMean p h c = v) →
      ∀ best, startChargeHoursGo p c hours (some v) best = best
  | [], _, best => rfl
  | h :: rest, hsub, best => by
    have h1 : windowMean p h c = v := hsub h (List.mem_cons_self _ _)
    have h2 : ∀ x ∈ rest, windowMean p x c = v := fun x hx =>
      hsub x (List.mem_cons_of_mem _ hx)
    simp only [startChargeHoursGo, h1, lt_irrefl, if_false]
    exact startChargeHoursGo_const p c v rest h2 best

/-- When all window means agree, the scan returns the first hour, 6. -/
lemma calculate_const (p : List ℚ) (c : ℕ) (v : ℚ)
    (hsub : ∀ h, 6 ≤ h → h < 16 → windowMean p h c = v) :
    calculate_start_charge_hours p c = 6 := by
  have e : List.range' 6 10 = 6 :: List.range' 7 9 := rfl
  unfold calculate_start_charge_hours
  rw [e]
  simp only [startChargeHoursGo]
  rw [hsub 6 (by norm_num) (by norm_num)]
  refine startChargeHoursGo_const p c v (List.range' 7 9) ?_ 6
  intro x hx
  have hb := List.mem_range'_1.mp hx
  exact hsub x (by omega) (by omega)

/-- On a constant series every window length gets start hour 6. -/
lemma calculate_replicate (v : ℚ) (c : ℕ) (hc : 0 < c) (hc8 : c ≤ 8) :
    calculate_start_charge_hours (List.replicate 24 v) c = 6 :=
  calculate_const _ c v (fun h h6 h16 => windowMean_replicate v h c hc (by omega))

/-- On a constant series every candidate start equals the length-3 start,
so every longer length is adopted and 8 wins. -/
lemma find_best_replicate (v : ℚ) :
    find_best_consecutive_hours (List.replicate 24 v)
      (calculate_start_charge_hours (List.replicate 24 v)) = 8 := by
  have h3 := calculate_replicate v 3 (by norm_num) (by norm_num)
  have h4 := calculate_replicate v 4 (by norm_num) (by norm_num)
  have h5 := calculate_replicate v 5 (by norm_num) (by norm_num)
  have h6 := calculate_replicate v 6 (by norm_num) (by norm_num)
  have h7 := calculate_replicate v 7 (by norm_num) (by norm_num)
  have h8 := calculate_replicate v 8 (by norm_num) (by norm_num)
  have e : POSSIBLE_CONSECUTIVE_HOURS.filter
      (fun x => decide (INITIAL_BEST_CONSECUTIVE_HOURS < x)) = [4, 5, 6, 7, 8] := by decide
  unfold find_best_consecutive_hours
  rw [e]
  simp only [adoptGo, INITIAL_BEST_CONSECUTIVE_HOURS, h3, h4, h5, h6, h7, h8,
    eq_self_iff_true, true_or, if_true]

/-- The full plan for a constant series: length 8, hours 6 to 14. -/
lemma chargePlan_replicate (v : ℚ) :
    chargePlan (List.replicate 24 v) = (8, 6, 14) := by
  have hb := find_best_replicate v
  have h8 := calculate_replicate v 8 (by norm_num) (by norm_num)
  simp only [chargePlan]
  rw [hb]
  unfold best_start_charge_hour best_end_charge_hour
  norm_num [INITIAL_BEST_CONSECUTIVE_HOURS, h8, PyNum.toQ]

/-- The scan result is the initial best hour or a member of the hour list. -/
lemma startChargeHoursGo_mem (p : List ℚ) (c : ℕ) :
    ∀ (hours : List ℕ) (m : Option ℚ) (best : ℕ),
      startChargeHoursGo p c hours m best = best ∨
        startChargeHoursGo p c hours m best ∈ hours
  | [], _, best => Or.inl rfl
  | h :: rest, none, best => by
    have hstep : startChargeHoursGo p c (h :: rest) none best =
        startChargeHoursGo p c rest (some (windowMean p h c)) h := rfl
    rw [hstep]
    rcases startChargeHoursGo_mem p c rest (some (windowMean p h c)) h with h1 | h1
    · rw [h1]; exact Or.inr (List.mem_cons_self _ _)
    · exact Or.inr (List.mem_cons_of_mem _ h1)
  | h :: rest, some m0, best => by
    have hstep : startChargeHoursGo p c (h :: rest) (some m0) best =
        if windowMean p h c < m0 then
          startChargeHoursGo p c rest (some (windowMean p h c)) h
        else startChargeHoursGo p c rest (some m0) best := rfl
    rw [hstep]
    by_cases hlt : windowMean p h c < m0
    · rw [if_pos hlt]
      rcases startChargeHoursGo_mem p c rest (some (windowMean p h c)) h with h1 | h1
      · rw [h1]; exact Or.inr (List.mem_cons_self _ _)
      · exact Or.inr (List.mem_cons_of_mem _ h1)
    · rw [if_neg hlt]
      rcases startChargeHoursGo_mem p c rest (some m0) best with h1 | h1
      · exact Or.inl h1
      · exact Or.inr (List.mem_cons_of_mem _ h1)

/-- Every computed start hour lies in the scanned range `[6, 15]`. -/
lemma calculate_mem (p : List ℚ) (c : ℕ) :
    6 ≤ calculate_start_charge_hours p c ∧ calculate_start_charge_hours p c ≤ 15 := by
  have hstep : calculate_start_charge_hours p c =
      startChargeHoursGo p c (List.range' 7 9) (some (windowMean p 6 c)) 6 := rfl
  rw [hstep]
  rcases startChargeHoursGo_mem p c (List.range' 7 9) (some (windowMean p 6 c)) 6 with h | h
  · rw [h]; omega
  · have := List.mem_range'_1.mp h
    omega

/-- The adoption loop returns the initial winner or a scanned length. -/
lemma adoptGo_mem (p : List ℚ) (sch : ℕ → ℕ) (bh : ℕ) (cap : ℚ) :
    ∀ (hours : List ℕ) (best : ℕ),
      adoptGo p sch bh cap hours best = best ∨ adoptGo p sch bh cap hours best ∈ hours
  | [], best => Or.inl rfl
  | c :: rest, best => by
    have hstep : adoptGo p sch bh cap (c :: rest) best =
        if sch c = bh ∨
            (sch c < bh ∧ (priceAt p (sch c) < 100 ∨ priceAt p (sch c) - cap < 45)) then
          adoptGo p sch bh cap rest c
        else adoptGo p sch bh cap rest best := rfl
    rw [hstep]
    by_cases hc : sch c = bh ∨
        (sch c < bh ∧ (priceAt p (sch c) < 100 ∨ priceAt p (sch c) - cap < 45))
    · rw [if_pos hc]
      rcases adoptGo_mem p sch bh cap rest c with h1 | h1
      · rw [h1]; exact Or.inr (List.mem_cons_self _ _)
      · exact Or.inr (List.mem_cons_of_mem _ h1)
    · rw [if_neg hc]
      rcases adoptGo_mem p sch bh cap rest best with h1 | h1
      · exact Or.inl h1
      · exact Or.inr (List.mem_cons_of_mem _ h1)

/-- The winning length lies in `[3, 8]`. -/
lemma find_best_mem (p : List ℚ) (sch : ℕ → ℕ) :
    3 ≤ find_best_consecutive_hours p sch ∧ find_best_consecutive_hours p sch ≤ 8 := by
  have e : POSSIBLE_CONSECUTIVE_HOURS.filter
      (fun x => decide (INITIAL_BEST_CONSECUTIVE_HOURS < x)) = [4, 5, 6, 7, 8] := by decide
  simp only [find_best_consecutive_hours]
  rw [e]
  rcases adoptGo_mem p sch (sch INITIAL_BEST_CONSECUTIVE_HOURS)
      (windowMax p (sch INITIAL_BEST_CONSECUTIVE_HOURS) INITIAL_BEST_CONSECUTIVE_HOURS)
      [4, 5, 6, 7, 8] INITIAL_BEST_CONSECUTIVE_HOURS with h | h
  · rw [h]; exact ⟨by decide, by decide⟩
  · have hx := h
    simp only [List.mem_cons, List.not_mem_nil, or_false] at hx
    rcases hx with h1 | h1 | h1 | h1 | h1 <;> omega

/-- Floor of a natural number minus one half. -/
lemma floor_natCast_sub_half (n : ℕ) : ⌊(n : ℚ) - 1/2⌋ = (n : ℤ) - 1 := by
  rw [Int.floor_eq_iff]
  constructor
  · push_cast; linarith
  · push_cast; linarith

/-- The mutating adoption loop of the source equals a left fold with the
same adoption condition: the condition never consults the running
winner, so the two traversals agree. -/
lemma adoptGo_eq_foldl (p : List ℚ) (sch : ℕ → ℕ) (bh : ℕ) (cap : ℚ) :
    ∀ (hours : List ℕ) (best : ℕ),
      adoptGo p sch bh cap hours best =
        hours.foldl
          (fun winner L =>
            if sch L = bh ∨
                (sch L < bh ∧ (priceAt p (sch L) < 100 ∨ priceAt p (sch L) - cap < 45)) then
              L
            else winner) best
  | [], best => rfl
  | c :: rest, best => by
    have hstep : adoptGo p sch bh cap (c :: rest) best =
        if sch c = bh ∨
            (sch c < bh ∧ (priceAt p (sch c) < 100 ∨ priceAt p (sch c) - cap < 45)) then
          adoptGo p sch bh cap rest c
        else adoptGo p sch bh cap rest best := rfl
    rw [hstep]
    simp only [List.foldl_cons]
    by_cases hc : sch c = bh ∨
        (sch c < bh ∧ (priceAt p (sch c) < 100 ∨ priceAt p (sch c) - cap < 45))
    · rw [if_pos hc, if_pos hc, adoptGo_eq_foldl p sch bh cap rest c]
    · rw [if_neg hc, if_neg hc, adoptGo_eq_foldl p sch bh cap rest best]

/-- The source's winning-length selection coincides with the
specification's fold. -/
lemma find_best_eq_claim (prices : List ℚ) (sch : ℕ → ℕ) :
    find_best_consecutive_hours prices sch = winnerSelectionClaim prices sch := by
  simp only [find_best_consecutive_hours, winnerSelectionClaim, INITIAL_BEST_CONSECUTIVE_HOURS]
  rw [show POSSIBLE_CONSECUTIVE_HOURS.filter (fun x => decide ((3:ℕ) < x)) = List.range' 4 5
    from by decide]
  exact adoptGo_eq_foldl prices sch (sch 3) (windowMax prices (sch 3) 3) (List.range' 4 5) 3

/-- Unfolding of the controller on a fully populated snapshot. -/
lemma waterHeaterUpdate_some (w : Bool) (soc bp cmp ex : ℚ) :
    waterHeaterUpdate ⟨some w, some soc, some bp, some cmp, some ex⟩ =
      waterHeaterOverrides w soc (-cmp) (ex * 1000)
        (waterHeaterTiers soc (-cmp) (-bp)) := rfl

/- ## Claim theorems -/

/-- C1 (counterexample): on the all-equal series of 24 prices 50, the
plan is not `(3, 5.5, 9)` as claimed. -/
theorem all_equal_claimed_plan_false :
    ¬ (chargePlan (List.replicate 24 (50 : ℚ)) = (3, 11/2, 9)) := by
  with_unfolding_all decide

/-- C1 (amended): for every constant 24-entry price series, every
candidate start equals the length-3 start, so each longer length is
adopted in turn and the optimizer returns `windowLengthHours = 8`,
`startHour = 6` (no half-hour adjustment since the length is not 3) and
`endHour = 14`. -/
theorem all_equal_plan_is_length_eight (v : ℚ) :
    chargePlan (List.replicate 24 v) = (8, 6, 14) :=
  chargePlan_replicate v

/-- C2: the winning-length selection of `find_best_consecutive_hours`
equals the specification's fold `winnerSelectionClaim` — starting from
winner length 3 with the winner hour `bestStart[3]` and `capPrice`
computed once over the length-3 window, each length 4..8 is adopted
exactly when its start equals the winner hour, or is strictly earlier
with `price[candidate] < 100` or `price[candidate] - capPrice < 45` —
and the final plan's start hour is derived from
`bestStart[winnerLength]`. -/
theorem winner_selection_matches_code (prices : List ℚ) (sch : ℕ → ℕ) :
    find_best_consecutive_hours prices sch = winnerSelectionClaim prices sch ∧
    (chargePlan prices).2.1 =
      (best_start_charge_hour (calculate_start_charge_hours prices)
        (winnerSelectionClaim prices (calculate_start_charge_hours prices))).toQ := by
  refine ⟨find_best_eq_claim prices sch, ?_⟩
  simp only [chargePlan]
  rw [← find_best_eq_claim prices (calculate_start_charge_hours prices)]

/-- C3 (code bug): with today's prices cached the same day at 14:40,
tomorrow absent and now 15:00 (20 minutes later), `_async_update_data`
raises `TypeError` — line 108 of `coordinator.py` binds the bound method
`total_seconds` without calling it — and issues no fetch at all, instead
of the partial refresh (one fetch for day+1, today kept) that the
specification describes. -/
theorem tomorrow_refresh_raises_type_error :
    updateData (some ⟨⟨0, 52800⟩, some ⟨List.replicate 24 50⟩, none⟩) ⟨0, 54000⟩
      (fun _ => .ok (some ⟨List.replicate 24 50⟩)) = (.error .typeError, []) := by
  with_unfolding_all decide

/-- C4: whenever the winning window length is 3,
`best_start_charge_hour` is the Python float `start - 0.5`,
`hour_to_timestamp` passes it to `datetime.time`, which needs an integer
hour, and `EmsDayData.create` — hence `Ems.update_rce` — raises
`TypeError` instead of returning a plan. -/
theorem update_rce_type_error_when_best_three (day : ℤ) (prices : List ℚ)
    (h : find_best_consecutive_hours prices (calculate_start_charge_hours prices) = 3) :
    update_rce_day day prices = .error .typeError := by
  simp [update_rce_day, EmsDayData.create, h, best_start_charge_hour, hour_to_timestamp,
    INITIAL_BEST_CONSECUTIVE_HOURS]

/-- C4 (witness): `spikeSeries` has winning length 3 and building the
day's data on it raises `TypeError`. -/
theorem update_rce_type_error_witness :
    find_best_consecutive_hours spikeSeries (calculate_start_charge_hours spikeSeries) = 3 ∧
    update_rce_day 0 spikeSeries = .error .typeError :=
  ⟨by with_unfolding_all decide,
    update_rce_type_error_when_best_three 0 spikeSeries (by with_unfolding_all decide)⟩

/-- C5 (counterexample): `spikeSeries` is a valid 24-entry series whose
winning length is 3, so the reported start hour is `6 - 0.5 = 5.5` and
its floor is 5, below the claimed lower bound 6. -/
theorem floor_start_hour_below_six :
    ¬ (6 ≤ ⌊(chargePlan spikeSeries).2.1⌋) := by
  with_unfolding_all decide

/-- C5 (amended): for every valid 24-length price series the optimizer
returns `windowLengthHours ∈ [3, 8]` and `5 ≤ ⌊startHour⌋ ≤ 15` — the
lower bound is 5, not 6, because a winning length of 3 subtracts half an
hour from a start hour that can be as low as 6. -/
theorem chargePlan_bounds (prices : List ℚ) (h : prices.length = 24) :
    3 ≤ (chargePlan prices).1 ∧ (chargePlan prices).1 ≤ 8 ∧
      5 ≤ ⌊(chargePlan prices).2.1⌋ ∧ ⌊(chargePlan prices).2.1⌋ ≤ 15 := by
  have key : ∀ (sch : ℕ → ℕ) (best : ℕ), 6 ≤ sch best → sch best ≤ 15 →
      5 ≤ ⌊(best_start_charge_hour sch best).toQ⌋ ∧
        ⌊(best_start_charge_hour sch best).toQ⌋ ≤ 15 := by
    intro sch best h6 h15
    unfold best_start_charge_hour
    rcases eq_or_ne best INITIAL_BEST_CONSECUTIVE_HOURS with h3 | h3
    · rw [if_pos h3]
      simp only [PyNum.toQ]
      rw [floor_natCast_sub_half]
      omega
    · rw [if_neg h3]
      simp only [PyNum.toQ]
      rw [Int.floor_intCast]
      omega
  have hb := find_best_mem prices (calculate_start_charge_hours prices)
  have hm := calculate_mem prices
    (find_best_consecutive_hours prices (calculate_start_charge_hours prices))
  have hk := key (calculate_start_charge_hours prices)
    (find_best_consecutive_hours prices (calculate_start_charge_hours prices)) hm.1 hm.2
  exact ⟨hb.1, hb.2, hk.1, hk.2⟩

/-- C5 (witness): the bounds hold for a concrete valid series. -/
theorem chargePlan_bounds_witness :
    (List.replicate 24 (0 : ℚ)).length = 24 ∧
    (3 ≤ (chargePlan (List.replicate 24 (0 : ℚ))).1 ∧
      (chargePlan (List.replicate 24 (0 : ℚ))).1 ≤ 8 ∧
      5 ≤ ⌊(chargePlan (List.replicate 24 (0 : ℚ))).2.1⌋ ∧
      ⌊(chargePlan (List.replicate 24 (0 : ℚ))).2.1⌋ ≤ 15) :=
  ⟨rfl, chargePlan_bounds (List.replicate 24 (0 : ℚ)) rfl⟩

/-- C6 (counterexample): at `soc = 95`, `pvAvailable = 3100`,
`batteryPower = 50`, `exportedEnergyWh = 0`, the controller does not
return `(true, false)` as claimed: `batteryPower = 50 < 100` makes the
90–96 tier's turn-off condition true. -/
theorem tier_90_96_claimed_output_false :
    ¬ (waterHeaterUpdate ⟨some false, some 95, some (-50), some (-3100), some 0⟩
        = (true, false)) := by
  with_unfolding_all decide

/-- C6 (amended): on that snapshot, for either relay state, the 90–96
tier gives `turnOn = true` (3100 > 3000) and `turnOff = true`
(50 < 100), and with zero exported energy no override applies, so the
output is `(true, true)`. -/
theorem tier_90_96_output_both_true (b : Bool) :
    waterHeaterUpdate ⟨some b, some 95, some (-50), some (-3100), some 0⟩ = (true, true) := by
  cases b <;> with_unfolding_all decide

/-- C7 (counterexample): a negative state of charge is not neutral: at
`soc = -5` with `pvAvailable = 4000` and `batteryPower = 2000` the
`soc <= 89` tier applies and the controller outputs `(true, false)`,
not `(false, false)`. -/
theorem negative_soc_not_neutral :
    waterHeaterTiers (-5) 4000 2000 ≠ (false, false) ∧
    waterHeaterUpdate ⟨some false, some (-5), some (-2000), some (-4000), some 0⟩
      = (true, false) := by
  constructor <;> with_unfolding_all decide

/-- C7 (amended): the tier chain yields `(false, false)` exactly for the
values that match no branch: `soc > 96` and different from 97, 98, 99
and 100 (for example `soc > 100`, or a non-integer strictly between 96
and 100); a negative `soc` instead falls into the `soc <= 89` tier. -/
theorem unmapped_soc_tier_neutral (soc pv bp : ℚ) (h96 : 96 < soc)
    (h97 : soc ≠ 97) (h98 : soc ≠ 98) (h99 : soc ≠ 99) (h100 : soc ≠ 100) :
    waterHeaterTiers soc pv bp = (false, false) := by
  unfold waterHeaterTiers
  rw [if_neg (not_le.mpr (by linarith)), if_neg (not_le.mpr h96),
    if_neg (fun h => h.elim h97 h98), if_neg h99, if_neg h100]

/-- C7 (witness): `soc = 96.5` matches no tier and the chain is neutral. -/
theorem unmapped_soc_tier_neutral_witness :
    (96 : ℚ) < 193/2 ∧ waterHeaterTiers (193/2) 123 456 = (false, false) :=
  ⟨by norm_num,
    unmapped_soc_tier_neutral (193/2) 123 456 (by norm_num) (by norm_num) (by norm_num)
      (by norm_num) (by norm_num)⟩

/-- C8: if any of the five telemetry signals is absent the controller
returns the neutral `(false, false)`, regardless of the present values. -/
theorem absent_signal_gives_neutral (s : InputState)
    (h : s.water_heater_is_on = none ∨ s.battery_soc = none ∨
      s.battery_power_2_minutes = none ∨ s.consumption_minus_pv_2_minutes = none ∨
      s.exported_energy_hourly = none) :
    waterHeaterUpdate s = (false, false) := by
  rcases h with h | h | h | h | h <;> simp [waterHeaterUpdate, none_present, h]

/-- C8 (witness): a snapshot missing only the relay state is neutral. -/
theorem absent_signal_witness :
    ((⟨none, some 100, some (-5000), some (-5000), some 10⟩ : InputState).water_heater_is_on
        = none ∨
      (⟨none, some 100, some (-5000), some (-5000), some 10⟩ : InputState).battery_soc = none ∨
      (⟨none, some 100, some (-5000), some (-5000), some 10⟩ :
        InputState).battery_power_2_minutes = none ∨
      (⟨none, some 100, some (-5000), some (-5000), some 10⟩ :
        InputState).consumption_minus_pv_2_minutes = none ∨
      (⟨none, some 100, some (-5000), some (-5000), some 10⟩ :
        InputState).exported_energy_hourly = none) ∧
    waterHeaterUpdate ⟨none, some 100, some (-5000), some (-5000), some 10⟩ = (false, false) :=
  ⟨Or.inl rfl, absent_signal_gives_neutral _ (Or.inl rfl)⟩

/-- C9: with all signals present and `soc >= 90`, exported energy above
300 Wh with positive available PV forces `(true, false)` regardless of
the tier outcome; otherwise exported energy above 80 Wh with the relay
on forces only `turnOff = false`; and below `soc = 90` the tier outputs
pass through unchanged. -/
theorem override_rules (w : Bool) (soc bp cmp ex : ℚ) :
    (90 ≤ soc → 300 < ex * 1000 → 0 < -cmp →
      waterHeaterUpdate ⟨some w, some soc, some bp, some cmp, some ex⟩ = (true, false)) ∧
    (90 ≤ soc → ¬(300 < ex * 1000 ∧ 0 < -cmp) → 80 < ex * 1000 → w = true →
      waterHeaterUpdate ⟨some w, some soc, some bp, some cmp, some ex⟩ =
        ((waterHeaterTiers soc (-cmp) (-bp)).1, false)) ∧
    (soc < 90 →
      waterHeaterUpdate ⟨some w, some soc, some bp, some cmp, some ex⟩ =
        waterHeaterTiers soc (-cmp) (-bp)) := by
  refine ⟨?_, ?_, ?_⟩
  · intro h90 h300 hpv
    rw [waterHeaterUpdate_some]
    simp only [waterHeaterOverrides]
    rw [if_pos h90, if_pos (show ex * 1000 > 300 ∧ -cmp > 0 from ⟨h300, hpv⟩)]
    split_ifs <;> rfl
  · intro h90 hna h80 hw
    rw [waterHeaterUpdate_some]
    simp only [waterHeaterOverrides]
    rw [if_pos h90, if_neg (show ¬(ex * 1000 > 300 ∧ -cmp > 0) from hna),
      if_pos (show ex * 1000 > 80 ∧ w = true from ⟨h80, hw⟩)]
  · intro hlt
    rw [waterHeaterUpdate_some]
    simp only [waterHeaterOverrides]
    rw [if_neg (not_le.mpr hlt)]

/-- C9 (witness): `soc = 95`, 350 Wh exported, 10 W of available PV:
the export override forces `(true, false)`. -/
theorem override_rules_witness :
    (90 : ℚ) ≤ 95 ∧ (300 : ℚ) < (7/20) * 1000 ∧ (0 : ℚ) < -(-10) ∧
    waterHeaterUpdate ⟨some true, some 95, some (-50), some (-10), some (7/20)⟩ = (true, false) :=
  ⟨by norm_num, by norm_num, by norm_num,
    (override_rules true 95 (-50) (-10) (7/20)).1 (by norm_num) (by norm_num) (by norm_num)⟩

/-- C10: a failing fetch for either day surfaces as the distinct
`UpdateFailed` signal — `full_update` produces an error, never a partial
`RceData` — and the previously cached snapshot, committed by the caller
only on success, is left untouched. -/
theorem fetch_failure_surfaced_and_state_kept
    (fetch : ℤ → Except FetchFailure (Option RceDayPrices)) (now : LocalTime)
    (st : Option RceData) (e : FetchFailure) :
    (fetch now.day = .error e →
      full_update fetch now = (.error (.updateFailed e), [now.day]) ∧
      commitUpdate st (full_update fetch now).1 = st) ∧
    (∀ t, fetch now.day = .ok t → fetch (now.day + 1) = .error e →
      full_update fetch now = (.error (.updateFailed e), [now.day, now.day + 1]) ∧
      commitUpdate st (full_update fetch now).1 = st) := by
  constructor
  · intro h
    simp [full_update, fetch_prices_for_day, h, commitUpdate]
  · intro t h1 h2
    simp [full_update, fetch_prices_for_day, h1, h2, commitUpdate]

/-- C10 (witness): a fetch that always fails makes the refresh of an
empty cache surface `UpdateFailed` and keeps an existing snapshot. -/
theorem fetch_failure_witness :
    ((fun _ : ℤ => (.error .apiError : Except FetchFailure (Option RceDayPrices))) (0 : ℤ)
        = .error .apiError) ∧
    full_update (fun _ => .error .apiError) ⟨0, 0⟩
      = (.error (.updateFailed .apiError), [0]) ∧
    commitUpdate (some ⟨⟨0, 0⟩, some ⟨[]⟩, none⟩)
      (full_update (fun _ => .error .apiError) ⟨0, 0⟩).1
      = some ⟨⟨0, 0⟩, some ⟨[]⟩, none⟩ := by
  refine ⟨rfl, ?_⟩
  exact (fetch_failure_surfaced_and_state_kept (fun _ => .error .apiError) ⟨0, 0⟩
    (some ⟨⟨0, 0⟩, some ⟨[]⟩, none⟩) .apiError).1 rfl
